import Mathlib

/-!
Verification of the URL-redirection resolver of the
go-gemini-grounded-search library.

The development shallowly embeds the functions of client.go, config.go,
options.go and the grounding-metadata extraction into Lean.  Network
effects are made explicit: a single HTTP HEAD probe is modelled by the
outcome it can have (request-construction failure, transport failure, or
a response with a status code and a Location header state), and the
nondeterminism of the concurrent worker pool (arrival order of results,
number of results drained before the batch deadline fires) is modelled
by explicit parameters that are constrained in the theorems.

Durations are integers in nanoseconds, mirroring time.Duration of Go.
-/

namespace GroundedSearch

/-- One second (Go time.Second) in nanoseconds. -/
def second : Int := 1000000000

/-! ## Data model -/

/-- One text segment attached to a grounding attribution
(GroundingAttributionSegment).  The float32 confidence score is not
modelled: no verified claim mentions it, and floating point is outside
the embedding. -/
structure GroundingAttributionSegment where
  startIndex : Int
  partIndex : Int
  endIndex : Int
  text : String
  deriving Repr, DecidableEq

/-- A cited source attached to a generated response (GroundingAttribution).
The resolver may overwrite only the url field, in place, by index. -/
structure GroundingAttribution where
  title : String
  domain : String
  url : String
  segments : List GroundingAttributionSegment
  deriving Repr, DecidableEq

/-! ## Redirect resolver (resolveOriginURL, client.go lines 346 to 394)

The probe client is built with CheckRedirect returning
http.ErrUseLastResponse, so the HTTP client hands back the first
response it receives instead of chasing redirects; hence one probe is
one exchange and resolveOriginURL consumes exactly one response. -/

/-- State of the Location header of the probe response, as observed
through resp.Location(): absent (http.ErrNoLocation), present but
unparseable, or parsed to a URL whose string form is value. -/
inductive LocationHeader where
  | absent : LocationHeader
  | malformed (msg : String) : LocationHeader
  | parsed (value : String) : LocationHeader
  deriving Repr, DecidableEq

/-- Outcome of the single HEAD probe: http.NewRequestWithContext failed,
client.Do failed (connection error, context cancellation, timeout), or a
response with a status code and a Location header state arrived. -/
inductive ProbeOutcome where
  | requestError (msg : String) : ProbeOutcome
  | transportError (msg : String) : ProbeOutcome
  | response (statusCode : Int) (location : LocationHeader) : ProbeOutcome
  deriving Repr, DecidableEq

/-- resolveOriginURL: resolves one level of redirection for urlStr given
the outcome of its single HEAD probe.  Mirrors client.go lines 368 to 393:
request or transport failure is wrapped and returned as an error; a
3xx response with a parsed Location resolves to that location; a 3xx
response without a Location header returns the original URL as success;
any non-3xx response returns the original URL as success. -/
def resolveOriginURL (probe : ProbeOutcome) (urlStr : String) : Except String String :=
  match probe with
  | .requestError msg =>
      .error ("failed to create request for " ++ urlStr ++ ": " ++ msg)
  | .transportError msg =>
      .error ("failed to send HEAD request to " ++ urlStr ++ ": " ++ msg)
  | .response statusCode location =>
      if 300 ≤ statusCode ∧ statusCode ≤ 399 then
        match location with
        | .parsed value => .ok value
        | .absent => .ok urlStr
        | .malformed msg =>
            .error ("failed to get location header from " ++ urlStr ++ ": " ++ msg)
      else
        .ok urlStr

/-! ## Claims C3, C6, C7, C8 -/

/-- C3: for every probe whose response status is in the redirect class
(300 to 399) and carries a parseable Location header, resolveOriginURL
returns the Location value as the resolved URL with no error.  The
returned value is the location itself, for an arbitrary location value,
so exactly one redirect hop is resolved: the result does not depend on
any further probing of the target. -/
theorem resolveOriginURL_redirect_with_location
    (statusCode : Int) (value urlStr : String)
    (h1 : 300 ≤ statusCode) (h2 : statusCode ≤ 399) :
    resolveOriginURL (.response statusCode (.parsed value)) urlStr = .ok value := by
  simp [resolveOriginURL, h1, h2]

/-- Witness for C3 at status 302. -/
theorem resolveOriginURL_redirect_with_location_witness :
    resolveOriginURL (.response 302 (.parsed "https://example.org/final"))
      "https://vertexaisearch.cloud.google.com/grounding-api-redirect/abc"
      = .ok "https://example.org/final" :=
  resolveOriginURL_redirect_with_location 302 "https://example.org/final"
    "https://vertexaisearch.cloud.google.com/grounding-api-redirect/abc"
    (by decide) (by decide)

/-- C6: for every probe whose response has a redirect-class status but no
Location header, resolveOriginURL returns the original input URL with no
error: a malformed redirect is treated as success with no change. -/
theorem resolveOriginURL_redirect_without_location
    (statusCode : Int) (urlStr : String)
    (h1 : 300 ≤ statusCode) (h2 : statusCode ≤ 399) :
    resolveOriginURL (.response statusCode .absent) urlStr = .ok urlStr := by
  simp [resolveOriginURL, h1, h2]

/-- Witness for C6 at status 304. -/
theorem resolveOriginURL_redirect_without_location_witness :
    resolveOriginURL (.response 304 .absent) "https://example.org/a"
      = .ok "https://example.org/a" :=
  resolveOriginURL_redirect_without_location 304 "https://example.org/a"
    (by decide) (by decide)

/-- C7: for every probe whose response status is not in the redirect
class, resolveOriginURL returns the original input URL unchanged with no
error, whatever the Location header holds; resolving a non-redirecting
URL is therefore idempotent in the URL value. -/
theorem resolveOriginURL_non_redirect_identity
    (statusCode : Int) (location : LocationHeader) (urlStr : String)
    (h : ¬(300 ≤ statusCode ∧ statusCode ≤ 399)) :
    resolveOriginURL (.response statusCode location) urlStr = .ok urlStr := by
  simp [resolveOriginURL, h]

/-- Witness for C7 at status 200 with a stray parsed Location. -/
theorem resolveOriginURL_non_redirect_identity_witness :
    resolveOriginURL (.response 200 (.parsed "https://elsewhere.example"))
      "https://example.org/a" = .ok "https://example.org/a" :=
  resolveOriginURL_non_redirect_identity 200 (.parsed "https://elsewhere.example")
    "https://example.org/a" (by decide)

/-- C8: for every probe in which the request cannot be built or the
transport fails to complete the exchange, resolveOriginURL reports an
error to its caller (the underlying message is wrapped, not swallowed),
never a URL. -/
theorem resolveOriginURL_transport_failure (msg urlStr : String) :
    resolveOriginURL (.requestError msg) urlStr =
      .error ("failed to create request for " ++ urlStr ++ ": " ++ msg) ∧
    resolveOriginURL (.transportError msg) urlStr =
      .error ("failed to send HEAD request to " ++ urlStr ++ ": " ++ msg) :=
  ⟨rfl, rfl⟩

/-! ## Deadline allocator (createResolveContext, client.go lines 470 to 482)

A parent context is represented by its remaining time budget: none when
it carries no deadline, some r (nanoseconds, possibly non-positive when
the deadline already passed) when time.Until of its deadline is r. -/

/-- Shape of the context returned by createResolveContext: either a
child built by context.WithTimeout with the given duration, or the
parent context returned unchanged (with a no-op cancel function). -/
inductive ResolveContext where
  | freshTimeout (duration : Int) : ResolveContext
  | parentAsIs : ResolveContext
  deriving Repr, DecidableEq

/-- createResolveContext: if the parent deadline leaves strictly more
than 20 seconds, cap the batch with a fresh 20-second timeout; if it
leaves 20 seconds or less, reuse the parent context as is; if the parent
has no deadline, impose a 15-second timeout. -/
def createResolveContext (parentRemaining : Option Int) : ResolveContext :=
  match parentRemaining with
  | some remaining =>
      if remaining > 20 * second then .freshTimeout (20 * second)
      else .parentAsIs
  | none => .freshTimeout (15 * second)

/-- Remaining budget of the context returned by createResolveContext.
context.WithTimeout never extends the parent deadline: a fresh timeout d
under a parent with remaining r yields min d r. -/
def resolveContextRemaining (parentRemaining : Option Int) : Option Int :=
  match parentRemaining, createResolveContext parentRemaining with
  | some r, .freshTimeout d => some (min d r)
  | none, .freshTimeout d => some d
  | p, .parentAsIs => p

/-! ## Claim C2 -/

/-- C2: createResolveContext gives (1) a fresh 20-second budget, never
exceeding the parent deadline, when the parent has strictly more than 20
seconds left; (2) the parent context unchanged (deadline neither
shortened nor extended) when the parent has 20 seconds or less left;
(3) a fresh 15-second budget when the parent carries no deadline. -/
theorem createResolveContext_spec :
    (∀ r : Int, 20 * second < r →
      createResolveContext (some r) = .freshTimeout (20 * second) ∧
      resolveContextRemaining (some r) = some (20 * second) ∧
      20 * second ≤ r) ∧
    (∀ r : Int, r ≤ 20 * second →
      createResolveContext (some r) = .parentAsIs ∧
      resolveContextRemaining (some r) = some r) ∧
    (createResolveContext none = .freshTimeout (15 * second) ∧
      resolveContextRemaining none = some (15 * second)) := by
  refine ⟨fun r h => ?_, fun r h => ?_, by constructor <;> rfl⟩
  · have hc : createResolveContext (some r) = .freshTimeout (20 * second) := by
      simp [createResolveContext, h]
    refine ⟨hc, ?_, le_of_lt h⟩
    simp only [resolveContextRemaining, hc]
    rw [min_eq_left (le_of_lt h)]
  · have hc : createResolveContext (some r) = .parentAsIs := by
      simp [createResolveContext, not_lt_of_le h]
    refine ⟨hc, ?_⟩
    simp only [resolveContextRemaining, hc]

/-- Witness for C2 at 25 seconds remaining, 5 seconds remaining, and no
deadline. -/
theorem createResolveContext_spec_witness :
    (createResolveContext (some (25 * second)) = .freshTimeout (20 * second) ∧
      resolveContextRemaining (some (25 * second)) = some (20 * second) ∧
      20 * second ≤ 25 * second) ∧
    (createResolveContext (some (5 * second)) = .parentAsIs ∧
      resolveContextRemaining (some (5 * second)) = some (5 * second)) ∧
    (createResolveContext none = .freshTimeout (15 * second) ∧
      resolveContextRemaining none = some (15 * second)) :=
  ⟨createResolveContext_spec.1 (25 * second) (by decide),
   createResolveContext_spec.2.1 (5 * second) (by decide),
   createResolveContext_spec.2.2⟩

/-! ## Worker pool and batch orchestrator
(resolveGroundingURLs and urlResolveWorker, client.go lines 396 to 466)

The Go orchestrator spawns 8 workers over two buffered channels, submits
one job per attribution with a non-empty URL, closes the job channel and
drains jobCount results, selecting between the next result and the batch
deadline.  The embedding makes the two nondeterministic inputs explicit:
arrivals, the stream of results in the order the orchestrator receives
them (any interleaving of the worker outputs), and budget, the number of
drain iterations in which a result wins the select before the deadline
fires.  Theorems constrain arrivals to a permutation of the worker
outputs where the claim requires it. -/

/-- A job for URL resolution (urlResolveJob): index into the attribution
sequence and URL to probe. -/
structure UrlResolveJob where
  index : Nat
  url : String
  deriving Repr, DecidableEq

/-- The result of URL resolution (urlResolveResult).  On worker success
err is none and url the resolved URL; on failure err holds the message
and url is empty. -/
structure UrlResolveResult where
  index : Nat
  url : String
  err : Option String
  deriving Repr, DecidableEq

/-- Job construction loop of resolveGroundingURLs (client.go lines 430
to 436), started at running index k: one job per attribution whose URL
is non-empty, carrying its position in the sequence. -/
def mkJobsFrom (k : Nat) : List GroundingAttribution → List UrlResolveJob
  | [] => []
  | a :: rest =>
      if a.url ≠ "" then { index := k, url := a.url } :: mkJobsFrom (k + 1) rest
      else mkJobsFrom (k + 1) rest

/-- The jobs submitted for one attribution sequence. -/
def mkJobs (grounding : List GroundingAttribution) : List UrlResolveJob :=
  mkJobsFrom 0 grounding

/-- One step of urlResolveWorker (client.go lines 457 to 466): probe the
URL of the job and emit exactly one result carrying the job index.  The
probe behaviour of the network is the parameter probe. -/
def urlResolveWorkerStep (probe : String → ProbeOutcome) (job : UrlResolveJob) :
    UrlResolveResult :=
  match resolveOriginURL (probe job.url) job.url with
  | .ok origin => { index := job.index, url := origin, err := none }
  | .error e => { index := job.index, url := "", err := some e }

/-- urlResolveWorker over the sub-list of jobs one worker consumes from
the job channel: one result per job consumed, in consumption order. -/
def urlResolveWorker (probe : String → ProbeOutcome)
    (jobsConsumed : List UrlResolveJob) : List UrlResolveResult :=
  jobsConsumed.map (urlResolveWorkerStep probe)

/-- In-place overwrite of the URL field of the attribution at position i
(grounding[result.index].URL = result.url).  Out of range leaves the
list unchanged; the orchestrator only ever uses indices of jobs, which
are in range. -/
def setURLAt : List GroundingAttribution → Nat → String → List GroundingAttribution
  | [], _, _ => []
  | a :: rest, 0, u => { a with url := u } :: rest
  | a :: rest, n + 1, u => a :: setURLAt rest n u

/-- Write-back of one collected result (client.go lines 443 to 448): a
result with no error and a non-empty URL overwrites the URL of the
attribution at the carried index; an error result (logged) and a
no-error empty-URL result leave the sequence unchanged. -/
def applyResult (grounding : List GroundingAttribution) (result : UrlResolveResult) :
    List GroundingAttribution :=
  if result.err = none ∧ result.url ≠ "" then
    setURLAt grounding result.index result.url
  else
    grounding

/-- The results the drain loop consumes (client.go lines 440 to 453):
the loop runs jobCount times and in each iteration either receives the
next arrival or, once the budget of iterations won by the result channel
is exhausted, returns on the expired context. -/
def drainedResults (jobCount budget : Nat) (arrivals : List UrlResolveResult) :
    List UrlResolveResult :=
  (arrivals.take jobCount).take budget

/-- resolveGroundingURLs (client.go lines 410 to 454): no-op on the
empty sequence; otherwise folds the write-back over the drained
results. -/
def resolveGroundingURLs (grounding : List GroundingAttribution)
    (arrivals : List UrlResolveResult) (budget : Nat) : List GroundingAttribution :=
  if grounding = [] then grounding
  else (drainedResults (mkJobs grounding).length budget arrivals).foldl applyResult grounding

/-- Capacity of the job channel: make(chan urlResolveJob, len(grounding)). -/
def jobsChannelCapacity (grounding : List GroundingAttribution) : Nat :=
  grounding.length

/-- Capacity of the result channel: make(chan urlResolveResult, len(grounding)). -/
def resultsChannelCapacity (grounding : List GroundingAttribution) : Nat :=
  grounding.length

/-- A send on a buffered channel blocks exactly when the buffer already
holds capacity elements. -/
def bufferedSendWouldBlock (capacity occupancy : Nat) : Bool :=
  capacity ≤ occupancy

/-! ## Structural lemmas about the write-back -/

theorem setURLAt_length (g : List GroundingAttribution) (i : Nat) (u : String) :
    (setURLAt g i u).length = g.length := by
  induction g generalizing i with
  | nil => rfl
  | cons a t ih =>
      cases i with
      | zero => rfl
      | succ n => simp [setURLAt, ih]

theorem setURLAt_get?_ne (g : List GroundingAttribution) (i j : Nat) (u : String)
    (h : j ≠ i) : (setURLAt g i u).get? j = g.get? j := by
  induction g generalizing i j with
  | nil => rfl
  | cons a t ih =>
      cases i with
      | zero =>
          cases j with
          | zero => exact absurd rfl h
          | succ m => rfl
      | succ n =>
          cases j with
          | zero => rfl
          | succ m =>
              simp only [setURLAt, List.get?_cons_succ]
              exact ih n m (fun hh => h (by rw [hh]))

theorem setURLAt_get?_eq (g : List GroundingAttribution) (i : Nat) (u : String) :
    (setURLAt g i u).get? i = (g.get? i).map (fun a => { a with url := u }) := by
  induction g generalizing i with
  | nil => cases i <;> rfl
  | cons a t ih =>
      cases i with
      | zero => rfl
      | succ n => simpa [setURLAt] using ih n

theorem setURLAt_comm (g : List GroundingAttribution) (i j : Nat) (u v : String)
    (h : i ≠ j) :
    setURLAt (setURLAt g i u) j v = setURLAt (setURLAt g j v) i u := by
  induction g generalizing i j with
  | nil => rfl
  | cons a t ih =>
      cases i with
      | zero =>
          cases j with
          | zero => exact absurd rfl h
          | succ m => rfl
      | succ n =>
          cases j with
          | zero => rfl
          | succ m =>
              simp only [setURLAt, List.cons.injEq, true_and]
              exact ih n m (fun hh => h (by rw [hh]))

theorem applyResult_pos (g : List GroundingAttribution) (r : UrlResolveResult)
    (h1 : r.err = none) (h2 : r.url ≠ "") :
    applyResult g r = setURLAt g r.index r.url := by
  unfold applyResult
  exact if_pos ⟨h1, h2⟩

theorem applyResult_neg (g : List GroundingAttribution) (r : UrlResolveResult)
    (h : ¬(r.err = none ∧ r.url ≠ "")) : applyResult g r = g := by
  unfold applyResult
  exact if_neg h

theorem applyResult_length (g : List GroundingAttribution) (r : UrlResolveResult) :
    (applyResult g r).length = g.length := by
  by_cases h : r.err = none ∧ r.url ≠ ""
  · rw [applyResult_pos g r h.1 h.2, setURLAt_length]
  · rw [applyResult_neg g r h]

theorem applyResult_get?_ne (g : List GroundingAttribution) (r : UrlResolveResult)
    (j : Nat) (h : r.index ≠ j) : (applyResult g r).get? j = g.get? j := by
  by_cases hr : r.err = none ∧ r.url ≠ ""
  · rw [applyResult_pos g r hr.1 hr.2, setURLAt_get?_ne g r.index j r.url (fun hh => h hh.symm)]
  · rw [applyResult_neg g r hr]

theorem applyResult_comm (g : List GroundingAttribution) (r s : UrlResolveResult)
    (h : r.index ≠ s.index) :
    applyResult (applyResult g r) s = applyResult (applyResult g s) r := by
  by_cases hr : r.err = none ∧ r.url ≠ ""
  · by_cases hs : s.err = none ∧ s.url ≠ ""
    · rw [applyResult_pos g r hr.1 hr.2, applyResult_pos _ s hs.1 hs.2,
        applyResult_pos g s hs.1 hs.2, applyResult_pos _ r hr.1 hr.2,
        setURLAt_comm g r.index s.index r.url s.url h]
    · rw [applyResult_neg _ s hs, applyResult_neg g s hs]
  · rw [applyResult_neg g r hr, applyResult_neg _ r hr]

theorem foldl_applyResult_length (rs : List UrlResolveResult)
    (g : List GroundingAttribution) : (rs.foldl applyResult g).length = g.length := by
  induction rs generalizing g with
  | nil => rfl
  | cons r rs ih => rw [List.foldl_cons, ih, applyResult_length]

theorem foldl_applyResult_get?_untouched (rs : List UrlResolveResult)
    (g : List GroundingAttribution) (i : Nat) (h : ∀ r ∈ rs, r.index ≠ i) :
    (rs.foldl applyResult g).get? i = g.get? i := by
  induction rs generalizing g with
  | nil => rfl
  | cons r rs ih =>
      rw [List.foldl_cons, ih _ (fun x hx => h x (List.mem_cons_of_mem _ hx)),
        applyResult_get?_ne g r i (h r (List.mem_cons_self _ _))]

/-! ## Structural lemmas about job creation -/

theorem mkJobsFrom_length_le (g : List GroundingAttribution) (k : Nat) :
    (mkJobsFrom k g).length ≤ g.length := by
  induction g generalizing k with
  | nil => simp [mkJobsFrom]
  | cons a t ih =>
      by_cases h : a.url ≠ ""
      · rw [mkJobsFrom, if_pos h]
        simpa using Nat.succ_le_succ (ih (k + 1))
      · rw [mkJobsFrom, if_neg h]
        simp only [List.length_cons]
        exact Nat.le_succ_of_le (ih (k + 1))

theorem mkJobsFrom_target (g : List GroundingAttribution) (k : Nat)
    (j : UrlResolveJob) (hj : j ∈ mkJobsFrom k g) :
    k ≤ j.index ∧ ∃ a, g.get? (j.index - k) = some a ∧ a.url ≠ "" ∧ j.url = a.url := by
  induction g generalizing k with
  | nil => simp [mkJobsFrom] at hj
  | cons a t ih =>
      by_cases h : a.url ≠ ""
      · rw [mkJobsFrom, if_pos h] at hj
        rcases List.mem_cons.mp hj with hj | hj
        · subst hj
          exact ⟨le_refl _, a, by simp, h, rfl⟩
        · rcases ih (k + 1) hj with ⟨hk, a', ha', hu', hju'⟩
          refine ⟨Nat.le_of_succ_le hk, a', ?_, hu', hju'⟩
          have hsub : j.index - k = (j.index - (k + 1)) + 1 := by omega
          rw [hsub, List.get?_cons_succ]
          exact ha'
      · rw [mkJobsFrom, if_neg h] at hj
        rcases ih (k + 1) hj with ⟨hk, a', ha', hu', hju'⟩
        refine ⟨Nat.le_of_succ_le hk, a', ?_, hu', hju'⟩
        have hsub : j.index - k = (j.index - (k + 1)) + 1 := by omega
        rw [hsub, List.get?_cons_succ]
        exact ha'

/-- Every job points at an attribution of the sequence whose URL is
non-empty and carries exactly that URL. -/
theorem mkJobs_target (g : List GroundingAttribution) (j : UrlResolveJob)
    (hj : j ∈ mkJobs g) :
    ∃ a, g.get? j.index = some a ∧ a.url ≠ "" ∧ j.url = a.url := by
  rcases mkJobsFrom_target g 0 j hj with ⟨_, a, ha, hu, hju⟩
  exact ⟨a, by simpa using ha, hu, hju⟩

theorem mkJobsFrom_count (g : List GroundingAttribution) (k : Nat) :
    (mkJobsFrom k g).length = (g.filter (fun a => decide (a.url ≠ ""))).length := by
  induction g generalizing k with
  | nil => rfl
  | cons a t ih =>
      by_cases h : a.url ≠ ""
      · rw [mkJobsFrom, if_pos h]
        simp [List.filter, h, ih (k + 1)]
      · rw [mkJobsFrom, if_neg h]
        simp only [ne_eq, not_not] at h
        simp [List.filter, h, ih (k + 1)]

theorem urlResolveWorkerStep_index (probe : String → ProbeOutcome)
    (j : UrlResolveJob) : (urlResolveWorkerStep probe j).index = j.index := by
  unfold urlResolveWorkerStep
  cases hh : resolveOriginURL (probe j.url) j.url <;> simp [hh]

/-! ## Claim C1 -/

/-- C1: each collected result is applied to the attribution at the index
the result carries.  An error result leaves the sequence completely
unchanged; a result with no error and a non-empty URL overwrites exactly
the URL field of the attribution at its index and nothing else.  With an
ample budget and pairwise-distinct result indices the orchestrator
output does not depend on the order in which results arrive. -/
theorem applyResult_indexed_writeback :
    (∀ (g : List GroundingAttribution) (r : UrlResolveResult),
      r.err ≠ none → applyResult g r = g) ∧
    (∀ (g : List GroundingAttribution) (r : UrlResolveResult),
      r.err = none → r.url ≠ "" →
      (applyResult g r).length = g.length ∧
      (∀ j : Nat, j ≠ r.index → (applyResult g r).get? j = g.get? j) ∧
      (applyResult g r).get? r.index =
        (g.get? r.index).map (fun a => { a with url := r.url })) ∧
    (∀ (g : List GroundingAttribution) (arr1 arr2 : List UrlResolveResult) (budget : Nat),
      arr1.Pairwise (fun a b => a.index ≠ b.index) →
      arr1.Perm arr2 →
      arr1.length ≤ (mkJobs g).length →
      arr1.length ≤ budget →
      resolveGroundingURLs g arr1 budget = resolveGroundingURLs g arr2 budget) := by
  refine ⟨?_, ?_, ?_⟩
  · intro g r h
    exact applyResult_neg g r (fun hc => h hc.1)
  · intro g r h1 h2
    refine ⟨applyResult_length g r,
      fun j hj => applyResult_get?_ne g r j (fun hh => hj hh.symm), ?_⟩
    rw [applyResult_pos g r h1 h2, setURLAt_get?_eq]
  · intro g arr1 arr2 budget hpw hperm hlen1 hbud
    unfold resolveGroundingURLs
    by_cases hg : g = []
    · simp [hg]
    · rw [if_neg hg, if_neg hg]
      unfold drainedResults
      have hlen2 : arr2.length = arr1.length := hperm.length_eq.symm
      have hlen1' : arr2.length ≤ (mkJobs g).length := by rw [hlen2]; exact hlen1
      have hbud' : arr2.length ≤ budget := by rw [hlen2]; exact hbud
      rw [List.take_of_length_le hlen1, List.take_of_length_le hbud,
        List.take_of_length_le hlen1', List.take_of_length_le hbud']
      have comm : ∀ x ∈ arr1, ∀ y ∈ arr1, ∀ z : List GroundingAttribution,
          applyResult (applyResult z x) y = applyResult (applyResult z y) x := by
        intro x hx y hy z
        by_cases hxy : x = y
        · subst hxy; rfl
        · exact applyResult_comm z x y
            (hpw.forall (fun _ _ h => h.symm) hx hy hxy)
      exact hperm.foldl_eq' comm g

/-- Witness for C1: an error result is a no-op; a successful result
overwrites the URL at its carried index. -/
theorem applyResult_indexed_writeback_witness :
    applyResult [⟨"t1", "", "http://a", []⟩]
        ⟨0, "", some "connection refused"⟩ = [⟨"t1", "", "http://a", []⟩] ∧
    (applyResult [⟨"t1", "", "http://a", []⟩, ⟨"t2", "d2", "http://b", []⟩]
        ⟨1, "http://b2", none⟩).get? 1 = some ⟨"t2", "d2", "http://b2", []⟩ := by
  constructor
  · exact applyResult_indexed_writeback.1 _ _ (by decide)
  · have h := (applyResult_indexed_writeback.2.1
      [⟨"t1", "", "http://a", []⟩, ⟨"t2", "d2", "http://b", []⟩]
      ⟨1, "http://b2", none⟩ rfl (by decide)).2.2
    simpa using h

/-! ## Claim C4 -/

/-- C4: resolveGroundingURLs is a no-op on the empty sequence; it
creates exactly one job per attribution with a non-empty URL, each job
pointing at its attribution and carrying its URL; and attributions with
an empty URL, having no job, are never mutated. -/
theorem resolveGroundingURLs_job_creation :
    (∀ (arrivals : List UrlResolveResult) (budget : Nat),
      resolveGroundingURLs [] arrivals budget = []) ∧
    (∀ g : List GroundingAttribution,
      (mkJobs g).length = (g.filter (fun a => decide (a.url ≠ ""))).length) ∧
    (∀ (g : List GroundingAttribution) (j : UrlResolveJob), j ∈ mkJobs g →
      ∃ a, g.get? j.index = some a ∧ a.url ≠ "" ∧ j.url = a.url) ∧
    (∀ (g : List GroundingAttribution) (probe : String → ProbeOutcome)
        (arrivals : List UrlResolveResult) (budget : Nat)
        (i : Nat) (a : GroundingAttribution),
      arrivals.Perm ((mkJobs g).map (urlResolveWorkerStep probe)) →
      g.get? i = some a → a.url = "" →
      (resolveGroundingURLs g arrivals budget).get? i = some a) := by
  refine ⟨fun arrivals budget => by simp [resolveGroundingURLs],
    fun g => mkJobsFrom_count g 0, fun g j hj => mkJobs_target g j hj, ?_⟩
  intro g probe arrivals budget i a hperm hga hurl
  by_cases hg : g = []
  · subst hg; simp at hga
  · unfold resolveGroundingURLs
    rw [if_neg hg]
    rw [foldl_applyResult_get?_untouched _ _ i ?_]
    · exact hga
    · intro r hr
      have hr1 : r ∈ arrivals :=
        List.take_subset _ _ (List.take_subset _ _ hr)
      have hr2 : r ∈ (mkJobs g).map (urlResolveWorkerStep probe) :=
        hperm.mem_iff.mp hr1
      rcases List.mem_map.mp hr2 with ⟨j, hj, rfl⟩
      rw [urlResolveWorkerStep_index]
      intro heq
      rcases mkJobs_target g j hj with ⟨a', ha', hu', _⟩
      rw [heq, hga] at ha'
      refine hu' ?_
      rw [← Option.some.inj ha']
      exact hurl

/-- Witness for C4: the empty batch, and a single empty-URL attribution
left untouched. -/
theorem resolveGroundingURLs_job_creation_witness :
    resolveGroundingURLs [] [⟨0, "http://x", none⟩] 3 = [] ∧
    (resolveGroundingURLs [⟨"t", "", "", []⟩] [] 5).get? 0 = some ⟨"t", "", "", []⟩ := by
  constructor
  · exact resolveGroundingURLs_job_creation.1 [⟨0, "http://x", none⟩] 3
  · exact resolveGroundingURLs_job_creation.2.2.2 [⟨"t", "", "", []⟩]
      (fun _ => .response 200 .absent) [] 5 0 ⟨"t", "", "", []⟩
      (List.Perm.refl _) rfl rfl

/-! ## Claim C5 -/

/-- C5: a worker emits exactly one result per job it consumes; the
orchestrator never collects more results than the number of jobs
submitted; with the arrivals a permutation of the worker outputs and a
budget covering every job, the collected results are exactly one result
per submitted job; and when the deadline fires after budget results
(budget below the job count) the orchestrator drains exactly budget
results and every attribution not covered by a drained result is left
unresolved. -/
theorem resolveGroundingURLs_result_accounting :
    (∀ (probe : String → ProbeOutcome) (js : List UrlResolveJob),
      (urlResolveWorker probe js).length = js.length) ∧
    (∀ (g : List GroundingAttribution) (arrivals : List UrlResolveResult) (budget : Nat),
      (drainedResults (mkJobs g).length budget arrivals).length ≤ (mkJobs g).length) ∧
    (∀ (g : List GroundingAttribution) (probe : String → ProbeOutcome)
        (arrivals : List UrlResolveResult) (budget : Nat),
      arrivals.Perm ((mkJobs g).map (urlResolveWorkerStep probe)) →
      (mkJobs g).length ≤ budget →
      (drainedResults (mkJobs g).length budget arrivals).Perm
        ((mkJobs g).map (urlResolveWorkerStep probe))) ∧
    (∀ (g : List GroundingAttribution) (probe : String → ProbeOutcome)
        (arrivals : List UrlResolveResult) (budget : Nat),
      arrivals.Perm ((mkJobs g).map (urlResolveWorkerStep probe)) →
      budget < (mkJobs g).length →
      (drainedResults (mkJobs g).length budget arrivals).length = budget ∧
      (∀ i : Nat,
        (∀ r ∈ drainedResults (mkJobs g).length budget arrivals, r.index ≠ i) →
        (resolveGroundingURLs g arrivals budget).get? i = g.get? i)) := by
  refine ⟨fun probe js => List.length_map js _, ?_, ?_, ?_⟩
  · intro g arrivals budget
    simp only [drainedResults, List.length_take]
    omega
  · intro g probe arrivals budget hperm hbud
    have hlen : arrivals.length = (mkJobs g).length := by
      rw [hperm.length_eq, List.length_map]
    unfold drainedResults
    rw [List.take_of_length_le (le_of_eq hlen),
      List.take_of_length_le (by rw [hlen]; exact hbud)]
    exact hperm
  · intro g probe arrivals budget hperm hbud
    have hlen : arrivals.length = (mkJobs g).length := by
      rw [hperm.length_eq, List.length_map]
    constructor
    · simp only [drainedResults, List.length_take, hlen]
      omega
    · intro i hi
      have hg : g ≠ [] := by
        intro hg
        subst hg
        simp [mkJobs, mkJobsFrom] at hbud
      unfold resolveGroundingURLs
      rw [if_neg hg]
      exact foldl_applyResult_get?_untouched _ _ i hi

/-- Witness for C5: one job, one worker result; with budget 1 the result
is drained in full, with budget 0 the deadline fires first, nothing is
drained and the attribution stays unresolved. -/
theorem resolveGroundingURLs_result_accounting_witness :
    (urlResolveWorker (fun _ => .response 200 .absent) [⟨0, "http://a"⟩]).length = 1 ∧
    (drainedResults (mkJobs [⟨"t", "", "http://a", []⟩]).length 1
        [⟨0, "http://a", none⟩]).Perm
      ((mkJobs [⟨"t", "", "http://a", []⟩]).map
        (urlResolveWorkerStep (fun _ => .response 200 .absent))) ∧
    (drainedResults (mkJobs [⟨"t", "", "http://a", []⟩]).length 0
        [⟨0, "http://a", none⟩]).length = 0 ∧
    (resolveGroundingURLs [⟨"t", "", "http://a", []⟩]
        [⟨0, "http://a", none⟩] 0).get? 0 =
      some ⟨"t", "", "http://a", []⟩ := by
  have h4 := resolveGroundingURLs_result_accounting.2.2.2
    [⟨"t", "", "http://a", []⟩] (fun _ => .response 200 .absent)
    [⟨0, "http://a", none⟩] 0 (by decide) (by decide)
  refine ⟨resolveGroundingURLs_result_accounting.1 _ _, ?_, h4.1, ?_⟩
  · exact resolveGroundingURLs_result_accounting.2.2.1
      [⟨"t", "", "http://a", []⟩] (fun _ => .response 200 .absent)
      [⟨0, "http://a", none⟩] 1 (by decide) (by decide)
  · rw [h4.2 0 (by decide)]
    rfl

/-! ## Claim C10 -/

/-- C10: both channels are created with capacity equal to the length of
the attribution sequence, which bounds the number of jobs submitted and
the number of results the workers emit; hence a send on either channel,
happening when the buffer holds strictly fewer elements than the number
of jobs, never blocks, and the workers can drain the closed job queue
and deposit every remaining result even if the orchestrator has already
returned. -/
theorem channel_capacity_nonblocking :
    (∀ g : List GroundingAttribution,
      (mkJobs g).length ≤ jobsChannelCapacity g) ∧
    (∀ (g : List GroundingAttribution) (probe : String → ProbeOutcome),
      ((mkJobs g).map (urlResolveWorkerStep probe)).length ≤ resultsChannelCapacity g) ∧
    (∀ (g : List GroundingAttribution) (k : Nat), k < (mkJobs g).length →
      bufferedSendWouldBlock (jobsChannelCapacity g) k = false) ∧
    (∀ (g : List GroundingAttribution) (k : Nat), k < (mkJobs g).length →
      bufferedSendWouldBlock (resultsChannelCapacity g) k = false) := by
  have hle : ∀ g : List GroundingAttribution, (mkJobs g).length ≤ g.length :=
    fun g => mkJobsFrom_length_le g 0
  refine ⟨hle, fun g probe => ?_, fun g k hk => ?_, fun g k hk => ?_⟩
  · rw [List.length_map]
    exact hle g
  · simp only [bufferedSendWouldBlock, jobsChannelCapacity,
      decide_eq_false_iff_not, not_le]
    exact lt_of_lt_of_le hk (hle g)
  · simp only [bufferedSendWouldBlock, resultsChannelCapacity,
      decide_eq_false_iff_not, not_le]
    exact lt_of_lt_of_le hk (hle g)

/-- Witness for C10 on a one-attribution batch. -/
theorem channel_capacity_nonblocking_witness :
    (mkJobs [⟨"t", "", "http://a", []⟩]).length ≤
      jobsChannelCapacity [⟨"t", "", "http://a", []⟩] ∧
    bufferedSendWouldBlock (jobsChannelCapacity [⟨"t", "", "http://a", []⟩]) 0 = false ∧
    bufferedSendWouldBlock (resultsChannelCapacity [⟨"t", "", "http://a", []⟩]) 0 = false :=
  ⟨channel_capacity_nonblocking.1 _,
   channel_capacity_nonblocking.2.2.1 [⟨"t", "", "http://a", []⟩] 0 (by decide),
   channel_capacity_nonblocking.2.2.2 [⟨"t", "", "http://a", []⟩] 0 (by decide)⟩

/-! ## Client configuration (config.go, options.go)

Fields of ClientConfig that are pointers to sampling parameters or SDK
objects (temperature, topK, topP, max tokens, safety settings, thinking
config, HTTP client) are not modelled: no verified claim mentions them
and they do not influence the redirection behaviour. -/

/-- The default model name (constants.go). -/
def defaultModelName : String := "gemini-3.0-flash"

/-- The default request timeout (constants.go): 60 seconds. -/
def defaultRequestTimeout : Int := 60 * second

/-- ClientConfig (config.go lines 11 to 65), restricted to the fields
the verified claims depend on. -/
structure ClientConfig where
  apiKey : String
  modelName : String
  requestTimeout : Int
  disableGoogleSearchToolGlobally : Bool
  noRedirection : Bool
  deriving Repr, DecidableEq

/-- newDefaultClientConfig (config.go lines 69 to 86): rejects an empty
API key and otherwise fills in the defaults; NoRedirection defaults to
false (follow redirects). -/
def newDefaultClientConfig (apiKey : String) : Except String ClientConfig :=
  if apiKey = "" then .error "gemini: API key is missing"
  else .ok { apiKey := apiKey, modelName := defaultModelName,
             requestTimeout := defaultRequestTimeout,
             disableGoogleSearchToolGlobally := false,
             noRedirection := false }

/-- WithNoRedirection (options.go lines 125 to 130): the option sets
NoRedirection and never fails. -/
def withNoRedirection (cfg : ClientConfig) : Except String ClientConfig :=
  .ok { cfg with noRedirection := true }

/-! ## Grounding metadata extraction (extractGroundingMetadata)

Model of the SDK payload the extraction consumes.  The float32
confidence scores of grounding supports are not modelled; the extracted
segment drops that field accordingly. -/

/-- genai.GroundingChunkWeb: title, domain and URI of a web source. -/
structure GroundingChunkWeb where
  title : String
  domain : String
  uri : String
  deriving Repr, DecidableEq

/-- genai.GroundingChunkRetrievedContext: title and URI of a retrieved
context source. -/
structure GroundingChunkRetrievedContext where
  title : String
  uri : String
  deriving Repr, DecidableEq

/-- genai.GroundingChunk: at most one of the two source kinds. -/
structure GroundingChunk where
  web : Option GroundingChunkWeb
  retrievedContext : Option GroundingChunkRetrievedContext
  deriving Repr, DecidableEq

/-- genai.Segment of a grounding support. -/
structure GenaiSegment where
  startIndex : Int
  partIndex : Int
  endIndex : Int
  text : String
  deriving Repr, DecidableEq

/-- genai.GroundingSupport: an optional segment and the indices of the
chunks it supports. -/
structure GroundingSupport where
  segment : Option GenaiSegment
  groundingChunkIndices : List Int
  deriving Repr, DecidableEq

/-- genai.GroundingMetadata: chunk and support lists, with possibly nil
entries. -/
structure GroundingMetadata where
  groundingChunks : List (Option GroundingChunk)
  groundingSupports : List (Option GroundingSupport)
  deriving Repr, DecidableEq

/-- Conversion of one chunk to an attribution: a nil chunk yields an
all-empty attribution; a web chunk supplies title, domain and URI; a
retrieved-context chunk supplies title and URI with no domain. -/
def chunkToAttribution (c : Option GroundingChunk) : GroundingAttribution :=
  match c with
  | none => { title := "", domain := "", url := "", segments := [] }
  | some chunk =>
      match chunk.web with
      | some w => { title := w.title, domain := w.domain, url := w.uri, segments := [] }
      | none =>
          match chunk.retrievedContext with
          | some rc => { title := rc.title, domain := "", url := rc.uri, segments := [] }
          | none => { title := "", domain := "", url := "", segments := [] }

/-- Append a segment to the segment list of the attribution at position
i; out of range leaves the list unchanged (the source guards the index
against numChunks before writing). -/
def appendSegmentAt : List GroundingAttribution → Nat → GroundingAttributionSegment →
    List GroundingAttribution
  | [], _, _ => []
  | a :: rest, 0, seg => { a with segments := a.segments ++ [seg] } :: rest
  | a :: rest, n + 1, seg => a :: appendSegmentAt rest n seg

/-- Processing of one grounding support: nil supports and supports
without a segment are skipped; otherwise the segment is linked to every
chunk whose index is within bounds. -/
def applySupport (numChunks : Nat) (attrs : List GroundingAttribution)
    (s : Option GroundingSupport) : List GroundingAttribution :=
  match s with
  | none => attrs
  | some sup =>
      match sup.segment with
      | none => attrs
      | some seg =>
          let appSeg : GroundingAttributionSegment :=
            { startIndex := seg.startIndex, partIndex := seg.partIndex,
              endIndex := seg.endIndex, text := seg.text }
          sup.groundingChunkIndices.foldl
            (fun acc idx =>
              if 0 ≤ idx ∧ idx < (numChunks : Int) then
                appendSegmentAt acc idx.toNat appSeg
              else acc)
            attrs

/-- extractGroundingMetadata: nil metadata or no chunks yields the empty
attribution list; otherwise one attribution per chunk, then the supports
are folded over the list.  The Go signature returns an error that is in
fact always nil; the Except mirrors the signature. -/
def extractGroundingMetadata (metadata : Option GroundingMetadata) :
    Except String (List GroundingAttribution) :=
  match metadata with
  | none => .ok []
  | some m =>
      if m.groundingChunks = [] then .ok []
      else
        .ok (m.groundingSupports.foldl
          (applySupport m.groundingChunks.length)
          (m.groundingChunks.map chunkToAttribution))

/-! ## Response processing (processGenaiResponse, client.go lines 134 to 209) -/

/-- genai.Part, restricted to its text. -/
structure GenaiPart where
  text : String
  deriving Repr, DecidableEq

/-- genai.Content: the list of parts. -/
structure GenaiContent where
  parts : List GenaiPart
  deriving Repr, DecidableEq

/-- genai.GenerateContentResponsePromptFeedback: block reason and its
message. -/
structure PromptFeedback where
  blockReason : String
  blockReasonMessage : String
  deriving Repr, DecidableEq

/-- genai.Candidate, restricted to the fields processGenaiResponse
reads. -/
structure GenaiCandidate where
  finishReason : String
  content : Option GenaiContent
  groundingMetadata : Option GroundingMetadata
  deriving Repr, DecidableEq

/-- genai.GenerateContentResponse, restricted to the fields
processGenaiResponse reads. -/
structure GenaiGenerateContentResponse where
  promptFeedback : Option PromptFeedback
  candidates : List GenaiCandidate
  deriving Repr, DecidableEq

/-- The string constant genai.BlockedReasonUnspecified. -/
def blockedReasonUnspecified : String := "BLOCKED_REASON_UNSPECIFIED"

/-- The string constant genai.FinishReasonSafety. -/
def finishReasonSafety : String := "SAFETY"

/-- The message of ErrNoContentGenerated. -/
def errNoContentGenerated : String := "gemini: model generated no content"

/-- The response type of the library, restricted to the fields the
verified claims depend on (the raw SDK echoes are not modelled). -/
structure Response where
  generatedText : String
  groundingAttributions : List GroundingAttribution
  searchSuggestions : List String
  deriving Repr, DecidableEq

/-- The candidate checks of processGenaiResponse (client.go lines 157
to 187): reject an empty candidate list, a safety finish, a candidate
without content parts, and a failing extraction; otherwise yield the
concatenated part texts and the extracted attributions. -/
def validateCandidates : List GenaiCandidate →
    Except String (String × List GroundingAttribution)
  | [] => .error errNoContentGenerated
  | candidate :: _ =>
      if candidate.finishReason = finishReasonSafety then
        .error "content generation stopped due to safety filters"
      else
        match candidate.content with
        | none => .error errNoContentGenerated
        | some content =>
            if content.parts = [] then .error errNoContentGenerated
            else
              match extractGroundingMetadata candidate.groundingMetadata with
              | .error e => .error ("failed to extract grounding metadata: " ++ e)
              | .ok grounding =>
                  .ok (content.parts.foldl (fun acc p => acc ++ p.text) "", grounding)

/-- The validation and extraction phase of processGenaiResponse
(client.go lines 135 to 187): reject an explicit call error, a nil
response and a blocked prompt, then run the candidate checks. -/
def validateAndExtract (callErr : Option String)
    (genaiResp : Option GenaiGenerateContentResponse) :
    Except String (String × List GroundingAttribution) :=
  match callErr with
  | some e => .error ("genai API call failed: " ++ e)
  | none =>
      match genaiResp with
      | none => .error "received nil response from API without explicit error"
      | some resp =>
          match resp.promptFeedback with
          | some pf =>
              if pf.blockReason ≠ blockedReasonUnspecified then
                .error ("prompt blocked due to " ++ pf.blockReason ++ ": "
                  ++ pf.blockReasonMessage)
              else validateCandidates resp.candidates
          | none => validateCandidates resp.candidates

/-- processGenaiResponse, instrumented with the number of invocations of
resolveGroundingURLs.  After validation and extraction, the resolver is
invoked exactly when NoRedirection is set (client.go lines 189 to 192);
the response is assembled afterwards and rejected when both the text and
the attribution list are empty. -/
def processGenaiResponse (cfg : ClientConfig) (callErr : Option String)
    (genaiResp : Option GenaiGenerateContentResponse)
    (arrivals : List UrlResolveResult) (budget : Nat) :
    Except String Response × Nat :=
  match validateAndExtract callErr genaiResp with
  | .error e => (.error e, 0)
  | .ok (generatedText, grounding) =>
      let resolved :=
        if cfg.noRedirection then resolveGroundingURLs grounding arrivals budget
        else grounding
      let calls : Nat := if cfg.noRedirection then 1 else 0
      if generatedText = "" ∧ resolved = [] then
        (.error errNoContentGenerated, calls)
      else
        (.ok { generatedText := generatedText, groundingAttributions := resolved,
               searchSuggestions := [] }, calls)

theorem validateCandidates_ok_structure (cands : List GenaiCandidate)
    (t : String) (grounding : List GroundingAttribution)
    (h : validateCandidates cands = .ok (t, grounding)) :
    ∃ c rest, cands = c :: rest ∧
      extractGroundingMetadata c.groundingMetadata = .ok grounding := by
  cases cands with
  | nil => simp [validateCandidates] at h
  | cons c rest =>
      refine ⟨c, rest, rfl, ?_⟩
      unfold validateCandidates at h
      by_cases hs : c.finishReason = finishReasonSafety
      · simp only [if_pos hs] at h
        simp at h
      · simp only [if_neg hs] at h
        cases hc : c.content with
        | none =>
            simp only [hc] at h
            simp at h
        | some content =>
            simp only [hc] at h
            by_cases hp : content.parts = []
            · simp only [if_pos hp] at h
              simp at h
            · simp only [if_neg hp] at h
              cases he : extractGroundingMetadata c.groundingMetadata with
              | error e =>
                  simp only [he] at h
                  simp at h
              | ok g =>
                  simp only [he] at h
                  have h2 : g = grounding :=
                    (Prod.ext_iff.mp (Except.ok.inj h)).2
                  rw [h2]

theorem validateAndExtract_ok_structure (callErr : Option String)
    (genaiResp : Option GenaiGenerateContentResponse)
    (t : String) (grounding : List GroundingAttribution)
    (h : validateAndExtract callErr genaiResp = .ok (t, grounding)) :
    callErr = none ∧ ∃ resp, genaiResp = some resp ∧ ∃ c rest,
      resp.candidates = c :: rest ∧
      extractGroundingMetadata c.groundingMetadata = .ok grounding := by
  cases callErr with
  | some e => simp [validateAndExtract] at h
  | none =>
      cases genaiResp with
      | none => simp [validateAndExtract] at h
      | some resp =>
          refine ⟨rfl, resp, rfl, ?_⟩
          have hv : validateCandidates resp.candidates = .ok (t, grounding) := by
            unfold validateAndExtract at h
            cases hpf : resp.promptFeedback with
            | none => simpa [hpf] using h
            | some pf =>
                simp only [hpf] at h
                by_cases hb : pf.blockReason ≠ blockedReasonUnspecified
                · simp only [if_pos hb] at h
                  simp at h
                · simp only [if_neg hb] at h
                  exact h
          exact validateCandidates_ok_structure resp.candidates t grounding hv

/-- The invocation count of resolveGroundingURLs inside
processGenaiResponse, in closed form. -/
theorem processGenaiResponse_calls (cfg : ClientConfig) (callErr : Option String)
    (genaiResp : Option GenaiGenerateContentResponse)
    (arrivals : List UrlResolveResult) (budget : Nat) :
    (processGenaiResponse cfg callErr genaiResp arrivals budget).2 =
      match validateAndExtract callErr genaiResp with
      | .error _ => 0
      | .ok _ => if cfg.noRedirection then 1 else 0 := by
  unfold processGenaiResponse
  cases hv : validateAndExtract callErr genaiResp with
  | error e => rfl
  | ok tg =>
      obtain ⟨t, g⟩ := tg
      by_cases hn : cfg.noRedirection = true
      · simp [hn, apply_ite Prod.snd]
      · simp [hn, apply_ite Prod.snd]

/-! ## Claim C9 -/

/-- C9: redirection resolution runs at most once per generation call and
only when NoRedirection is set (set via WithNoRedirection, off in the
default configuration); when the option is off, resolveGroundingURLs is
invoked zero times and the attributions of the returned response are
exactly the ones the extraction produced from the provider response. -/
theorem processGenaiResponse_redirection_gating :
    (∀ cfg : ClientConfig,
      withNoRedirection cfg = .ok { cfg with noRedirection := true }) ∧
    (∀ (apiKey : String) (cfg : ClientConfig),
      newDefaultClientConfig apiKey = .ok cfg → cfg.noRedirection = false) ∧
    (∀ (cfg : ClientConfig) (callErr : Option String)
        (genaiResp : Option GenaiGenerateContentResponse)
        (arrivals : List UrlResolveResult) (budget : Nat),
      (processGenaiResponse cfg callErr genaiResp arrivals budget).2 ≤ 1 ∧
      ((processGenaiResponse cfg callErr genaiResp arrivals budget).2 = 1 →
        cfg.noRedirection = true)) ∧
    (∀ (cfg : ClientConfig) (callErr : Option String)
        (genaiResp : Option GenaiGenerateContentResponse)
        (arrivals : List UrlResolveResult) (budget : Nat),
      cfg.noRedirection = false →
      (processGenaiResponse cfg callErr genaiResp arrivals budget).2 = 0) ∧
    (∀ (cfg : ClientConfig) (callErr : Option String)
        (genaiResp : Option GenaiGenerateContentResponse)
        (arrivals : List UrlResolveResult) (budget : Nat)
        (t : String) (grounding : List GroundingAttribution) (r : Response),
      cfg.noRedirection = false →
      validateAndExtract callErr genaiResp = .ok (t, grounding) →
      (processGenaiResponse cfg callErr genaiResp arrivals budget).1 = .ok r →
      r.groundingAttributions = grounding) ∧
    (∀ (callErr : Option String) (genaiResp : Option GenaiGenerateContentResponse)
        (t : String) (grounding : List GroundingAttribution),
      validateAndExtract callErr genaiResp = .ok (t, grounding) →
      callErr = none ∧ ∃ resp, genaiResp = some resp ∧ ∃ c rest,
        resp.candidates = c :: rest ∧
        extractGroundingMetadata c.groundingMetadata = .ok grounding) := by
  refine ⟨fun cfg => rfl, ?_, ?_, ?_, ?_,
    fun callErr genaiResp t grounding h =>
      validateAndExtract_ok_structure callErr genaiResp t grounding h⟩
  · intro apiKey cfg h
    unfold newDefaultClientConfig at h
    by_cases hk : apiKey = ""
    · simp only [if_pos hk] at h
      simp at h
    · simp only [if_neg hk] at h
      rw [← Except.ok.inj h]
  · intro cfg callErr genaiResp arrivals budget
    rw [processGenaiResponse_calls]
    cases validateAndExtract callErr genaiResp with
    | error e => exact ⟨by simp, by simp⟩
    | ok tg =>
        by_cases hn : cfg.noRedirection = true
        · simp [hn]
        · simp [hn]
  · intro cfg callErr genaiResp arrivals budget hn
    rw [processGenaiResponse_calls]
    cases validateAndExtract callErr genaiResp with
    | error e => rfl
    | ok tg => simp [hn]
  · intro cfg callErr genaiResp arrivals budget t grounding r hn hval hok
    unfold processGenaiResponse at hok
    rw [hval] at hok
    simp only [hn, if_false, Bool.false_eq_true] at hok
    split at hok
    · simp at hok
    · rw [← Except.ok.inj hok]

/-- Witness for C9: a one-candidate response without grounding metadata,
processed with NoRedirection off, invokes the resolver zero times and
returns the extracted (empty) attribution list. -/
theorem processGenaiResponse_redirection_gating_witness :
    withNoRedirection ⟨"k", "m", 0, false, false⟩ = .ok ⟨"k", "m", 0, false, true⟩ ∧
    (∀ cfgd, newDefaultClientConfig "key" = .ok cfgd → cfgd.noRedirection = false) ∧
    (processGenaiResponse ⟨"k", "m", 0, false, false⟩ none
        (some ⟨none, [⟨"STOP", some ⟨[⟨"hi"⟩]⟩, none⟩]⟩) [] 0).2 = 0 ∧
    (⟨"hi", [], []⟩ : Response).groundingAttributions = [] := by
  refine ⟨processGenaiResponse_redirection_gating.1 _,
    fun cfgd h => processGenaiResponse_redirection_gating.2.1 "key" cfgd h,
    processGenaiResponse_redirection_gating.2.2.2.1
      ⟨"k", "m", 0, false, false⟩ none
      (some ⟨none, [⟨"STOP", some ⟨[⟨"hi"⟩]⟩, none⟩]⟩) [] 0 rfl, ?_⟩
  exact processGenaiResponse_redirection_gating.2.2.2.2.1
    ⟨"k", "m", 0, false, false⟩ none
    (some ⟨none, [⟨"STOP", some ⟨[⟨"hi"⟩]⟩, none⟩]⟩) [] 0
    "hi" [] ⟨"hi", [], []⟩ rfl rfl rfl

end GroundedSearch
